import Mathlib

/-!
Shallow embedding of the request-arbitration and valve-interlock core of the
hottie central-heating controller.

Sources embedded here:
* `src/server/js/Thermostat.js` — class `Thermostat`: `getTargetTemperature`,
  `addRequest`, `purgeRequests`.
* `src/server/js/Historian.js` — class `Controller` (`setPromise`, `pollRules`)
  and the request-carrying version of class `Pin` (`addRequest`,
  `purgeRequests`, `getActiveRequest`).

JS numbers only ever flow through comparisons (`<`, `>=`, `===`) in this core,
so they are embedded as `ℚ` (temperatures/targets) and `Int` (epoch times);
no floating-point arithmetic occurs in the embedded code paths.
-/

namespace Hotpot

/-- Modelled from the spec: `Utils.BOOST` (defined in `common/js/Utils.js`,
which is not among the sources) is an out-of-band sentinel value for the
`until` field, distinct from every concrete epoch time
(`until: EPOCH_SECONDS | BOOST_SENTINEL`).  The `until` field is therefore
embedded as a sum: either the boost sentinel or a concrete time.  In the JS,
`r.until_ == Utils.BOOST` selects the sentinel branch and the numeric
comparison `r.until_ < now` is only ever evaluated on the non-sentinel
branch (it sits in the `else` of the sentinel test). -/
inductive Until
  | boost
  | time (t : Int)
deriving DecidableEq, Repr

/-- Request record of `Thermostat.js`: `{ source: string, target: number,
until: epoch seconds | BOOST }`. -/
structure Request where
  source : String
  target : ℚ
  until_ : Until
deriving DecidableEq, Repr

/-- Modelled from the spec: the `Timeline` class (`common/js/Timeline.js` is
not among the sources).  The core only touches two members: the configured
`max` bound (a plain configuration field, see the test configuration
`timeline: { min: 0, max: 50, ... }` in the Controller test) and
`valueAtTime`, which may throw (embedded as `Except`). -/
structure Timeline where
  max : ℚ
  valueAtTime : Int → Except String ℚ

/-- State of a `Thermostat` (`src/server/js/Thermostat.js`): last sensed
`temperature`, the configured `timeline` and the ordered request list
(JS array, iteration order = insertion order). -/
structure Thermostat where
  temperature : ℚ
  timeline : Timeline
  requests : List Request

/-- The explicit-match part of `Thermostat.purgeRequests(match)`: the loop
`for (let k in match) { purge = true; if (k !== "service" && r[k] !== match[k]) { purge = false; break; } }`.
Call sites in the sources pass either no match (`undefined`) or
`{source: id}`, so the match is embedded as an optional source criterion;
with no match the loop body never runs and the flag stays `false`. -/
def requestMatches (m : Option String) (r : Request) : Bool :=
  match m with
  | none => false
  | some s => r.source == s

/-- The expiry part of the `Thermostat.purgeRequests` loop body:
`if (r.until_ == Utils.BOOST) { if (this.temperature >= r.target || this.temperature >= this.timeline.max) purge = true; } else if (r.until_ < Time.nowSeconds()) purge = true;`.
`temp` is `this.temperature`, `tmax` is `this.timeline.max`, `now` is
`Time.nowSeconds()`. -/
def requestExpired (temp tmax : ℚ) (now : Int) (r : Request) : Bool :=
  match r.until_ with
  | .boost => decide (r.target ≤ temp) || decide (tmax ≤ temp)
  | .time t => decide (t < now)

/-- `Thermostat.purgeRequests(match)` (`src/server/js/Thermostat.js` lines
250–280): removes a request when the explicit match criteria hold, or the
expiry condition holds (the two `purge = true` assignments never reset the
flag, so removal is their disjunction).  The splice-with-`i--` loop is a
filter.  The JS mutates `this.requests`; here the updated thermostat is
returned. -/
def Thermostat.purgeRequests (th : Thermostat) (m : Option String) (now : Int) : Thermostat :=
  { th with requests := th.requests.filter fun r =>
      !(requestMatches m r || requestExpired th.temperature th.timeline.max now r) }

/-- `Thermostat.addRequest(source, target, until)` (`src/server/js/Thermostat.js`
lines 228–242): `if (source) this.purgeRequests({source: source});` then push
the new request.  JS truthiness of the string `source` is `source ≠ ""`. -/
def Thermostat.addRequest (th : Thermostat) (source : String) (target : ℚ)
    (until_ : Until) (now : Int) : Thermostat :=
  let th' := if source ≠ "" then th.purgeRequests (some source) now else th
  { th' with requests := th'.requests ++ [⟨source, target, until_⟩] }

/-- `Thermostat.getTargetTemperature()` (`src/server/js/Thermostat.js` lines
180–199): purge with no match, then if requests remain scan them tail-to-head
for the first `until == BOOST` and return its target; otherwise return the
last request's target; with no requests, return
`timeline.valueAtTime(Time.time_of_day())`, catching any exception and
returning `0`.  `now` is `Time.nowSeconds()` (used by the purge), `tod` is
`Time.time_of_day()`. -/
def Thermostat.getTargetTemperature (th : Thermostat) (now tod : Int) : ℚ :=
  let th' := th.purgeRequests none now
  match th'.requests with
  | [] =>
    match th.timeline.valueAtTime tod with
    | .ok t => t
    | .error _ => 0
  | r0 :: rest =>
    match (r0 :: rest).reverse.find? (fun q => decide (q.until_ = Until.boost)) with
    | some r => r.target
    | none => ((r0 :: rest).getLast (List.cons_ne_nil r0 rest)).target

/-- Request record of the request-carrying `Pin` class in
`src/server/js/Historian.js`: `{ until: epoch ms, state: 2|1|0, source: string }`.
`state = 2` plays the role of the boost sentinel at pin level (a request with
`state === 2` is exempt from time-based purging). -/
structure PinRequest where
  source : String
  state : Int
  until_ : Int
deriving DecidableEq, Repr

/-- `Pin.purgeRequests(state, source)` (`src/server/js/Historian.js` lines
1094–1106): removes `r` when
`(typeof source !== "undefined" && r.source === source) || (typeof state !== "undefined" && r.state === state) || (r.state !== 2 && Time.now() > r.until)`.
The optional arguments are embedded as `Option`s; the JS mutates
`this.requests`, here the new list is returned. -/
def Pin.purgeRequests (stateM : Option Int) (sourceM : Option String) (now : Int)
    (reqs : List PinRequest) : List PinRequest :=
  reqs.filter fun r =>
    !((match sourceM with | some s => r.source == s | none => false)
      || (match stateM with | some st => r.state == st | none => false)
      || (decide (r.state ≠ 2) && decide (now > r.until_)))

/-- The scan loop of `Pin.getActiveRequest()` (`src/server/js/Historian.js`
lines 1134–1146): `active_req` is set to the first element; if its state is 0
it is returned at once; otherwise the first later element with state 0 is
returned; failing that, `active_req` (the first element) is returned. -/
def Pin.getActiveRequestScan : List PinRequest → Option PinRequest
  | [] => none
  | r :: rs =>
    if r.state = 0 then some r
    else
      match rs.find? (fun q => decide (q.state = 0)) with
      | some q => some q
      | none => some r

/-- `Pin.getActiveRequest()` (`src/server/js/Historian.js` lines 1131–1147):
`this.purgeRequests()` (both arguments `undefined`), then the scan loop. -/
def Pin.getActiveRequest (now : Int) (reqs : List PinRequest) : Option PinRequest :=
  Pin.getActiveRequestScan (Pin.purgeRequests none none now reqs)

/-- Physical state the interlock `Controller` (`src/server/js/Historian.js`)
coordinates: the two pin values (each `0` or `1`, read back through
`getStatePromise`/`getState`) and the single-flight `pending` flag. -/
structure CtrlState where
  ch : Int
  hw : Int
  pending : Bool
deriving DecidableEq, Repr

/-- A physical pin write `pins[p].set(v)` observed during `setPromise`. -/
inductive PinWrite
  | write (pin : String) (v : Int)
deriving DecidableEq, Repr

/-- Outcome of one `Controller.setPromise(channel, new_state)` call:

* `deferred retry_ms` — the `this.pending` branch: no pin access happens now;
  a timer re-issues the same call after `self.valve_return` ms.
* `resolved writes s` — the returned promise fulfills, having performed
  exactly `writes` (in order), leaving physical/pending state `s`.
* `rejected err writes s` — the returned promise rejects with `err` after
  performing `writes`, leaving state `s`. -/
inductive SetResult
  | deferred (retry_ms : Int)
  | resolved (writes : List PinWrite) (s : CtrlState)
  | rejected (err : String) (writes : List PinWrite) (s : CtrlState)
deriving DecidableEq, Repr

/-- Lookup `pins[channel]` and read its state: the controller's pin map holds
exactly `CH` and `HW` (see `Controller.Model` and `resetValve`). -/
def CtrlState.pinState (s : CtrlState) (channel : String) : Option Int :=
  if channel = "CH" then some s.ch
  else if channel = "HW" then some s.hw
  else none

/-- Effect of `pins[channel].set(v)` on the physical state. -/
def CtrlState.setPin (s : CtrlState) (channel : String) (v : Int) : CtrlState :=
  if channel = "CH" then { s with ch := v }
  else if channel = "HW" then { s with hw := v }
  else s

/-- `Controller.setPromise(channel, new_state)` (`src/server/js/Historian.js`
lines 630–687).

* If `this.pending`, a promise is returned that retries the whole call after
  `self.valve_return` ms without touching any pin (`deferred`).
* Otherwise `cur_state` is read from `pins[channel]`; if it already equals
  `new_state` the promise resolves with no writes.
* Dangerous Y-plan case `cur_state === 1 && channel === "CH" && new_state === 0`
  with `pins.HW.getState() === 0`: the chain runs `pins.CH.set(0)`,
  `pins.HW.set(1)`, sets `self.pending = true`, and then evaluates
  `setTimeout(resolve, this.valve_return)` inside a `function () {...}`
  promise callback.  The class body is strict-mode code, so `this` is
  `undefined` in that callback and reading `this.valve_return` throws a
  `TypeError`; the `Promise` constructor turns the throw into a rejection, the
  final `.then` (which would clear `pending` and re-issue `pins.CH.set(0)`) is
  skipped, and the call rejects with `pending` left `true`.
* Otherwise a single direct `pins[channel].set(new_state)` is performed.

The guard `if (pins[channel] === "undefined")` compares an object against the
string `"undefined"` and is never taken; an unknown channel therefore throws
a `TypeError` when `getStatePromise` is called on `undefined`. -/
def Controller.setPromise (valve_return : Int) (s : CtrlState)
    (channel : String) (new_state : Int) : SetResult :=
  if s.pending then .deferred valve_return
  else
    match s.pinState channel with
    | none => .rejected "TypeError: cannot read getStatePromise of undefined" [] s
    | some cur =>
      if cur = new_state then .resolved [] s
      else if cur = 1 ∧ channel = "CH" ∧ new_state = 0 ∧ s.hw = 0 then
        .rejected "TypeError: cannot read valve_return of undefined"
          [.write "CH" 0, .write "HW" 1]
          { ch := 0, hw := 1, pending := true }
      else .resolved [.write channel new_state] (s.setPin channel new_state)

/-- One configured rule as seen by `Controller.pollRules`
(`src/server/js/Historian.js` lines 797–809): `testfn` is the compiled rule
function (`server/js/Rule.js`, not among the sources; the loop's own comment
documents the contract: "Rule evaluation functions return a promise to set a
pin state").  `hasTestFn` is `typeof rule.testfn === "function"`; `rejects`
records whether this tick's evaluation returns a rejected promise (a rule
failure). -/
structure Rule where
  name : String
  hasTestFn : Bool
  rejects : Bool
deriving DecidableEq, Repr

/-- Observable outcome of one `Controller.pollRules` tick (rule-loop part):
which rules were invoked, which failures were caught and logged by the
per-rule `.catch`, and whether the next-tick timer was re-armed. -/
structure PollOutcome where
  evaluated : List String
  logged : List String
  timerArmed : Bool
deriving DecidableEq, Repr

/-- The rule loop and timer re-arm of `Controller.pollRules()`
(`src/server/js/Historian.js` lines 781–816).  Before this loop the tick
clears any existing timer and runs `purgeRequests()` on every thermostat
(embedded as `Thermostat.purgeRequests` with no match).  For each rule:
if `typeof rule.testfn !== "function"` the method logs and `return true`s,
abandoning the remaining rules and the timer re-arm; otherwise
`rule.testfn.call(self, ...)` is invoked and a `.catch` is attached that logs
any rejection, so a failing rule neither stops the loop nor the re-arm.
After the loop `self.poll.timer = setTimeout(..., self.rule_interval)`. -/
def Controller.pollRules : List Rule → PollOutcome
  | [] => { evaluated := [], logged := [], timerArmed := true }
  | r :: rs =>
    if !r.hasTestFn then { evaluated := [], logged := [], timerArmed := false }
    else
      let rest := Controller.pollRules rs
      { evaluated := r.name :: rest.evaluated,
        logged := (if r.rejects then [r.name] else []) ++ rest.logged,
        timerArmed := rest.timerArmed }

/-- Specification-side reading of "the most recently added BOOST request":
the last request in insertion order whose `until` is the boost sentinel. -/
def mostRecentBoost (reqs : List Request) : Option Request :=
  (reqs.filter fun r => decide (r.until_ = Until.boost)).getLast?

/-- One `addRequest(source, target, until)` call together with the clock value
`Time.nowSeconds()` observed during its embedded purge. -/
structure AddCall where
  source : String
  target : ℚ
  until_ : Until
  now : Int

/-- Fold a sequence of `addRequest` calls over a thermostat. -/
def applyCalls (th : Thermostat) (calls : List AddCall) : Thermostat :=
  calls.foldl (fun t c => t.addRequest c.source c.target c.until_ c.now) th

/-- The per-source uniqueness invariant: the request list holds at most one
request per `source` (all sources pairwise distinct). -/
def sourcesDistinct (reqs : List Request) : Prop :=
  reqs.Pairwise fun a b => a.source ≠ b.source

/-! ## Helper lemmas -/

theorem find?_eq_head?_filter (p : α → Bool) :
    ∀ l : List α, l.find? p = (l.filter p).head? := by
  intro l
  induction l with
  | nil => rfl
  | cons a l ih =>
    cases h : p a with
    | true => rw [List.find?_cons_of_pos _ h, List.filter_cons_of_pos h, List.head?_cons]
    | false =>
      rw [List.find?_cons_of_neg _ (by simp [h]), List.filter_cons_of_neg (by simp [h]), ih]

theorem find?_reverse_eq_getLast?_filter (p : α → Bool) (l : List α) :
    l.reverse.find? p = (l.filter p).getLast? := by
  rw [find?_eq_head?_filter, List.filter_reverse, List.head?_reverse]

/-! ## Claim theorems -/

/-- C2: while a valve transition is in flight (`this.pending` set), a further
`Controller.setPromise` call performs no pin writes: it is deferred
(`deferred` carries no write list) and the whole call is retried after
`self.valve_return` milliseconds, so writes of a second transition can only
start once `pending` has cleared — at most one interlock transition is in
flight at any time. -/
theorem setPromise_pending_defers (valve_return : Int) (s : CtrlState)
    (channel : String) (new_state : Int) (h : s.pending = true) :
    Controller.setPromise valve_return s channel new_state =
      SetResult.deferred valve_return := by
  simp [Controller.setPromise, h]

theorem setPromise_pending_defers_witness :
    (⟨1, 0, true⟩ : CtrlState).pending = true ∧
    Controller.setPromise 8000 ⟨1, 0, true⟩ "HW" 1 = SetResult.deferred 8000 :=
  ⟨rfl, setPromise_pending_defers 8000 ⟨1, 0, true⟩ "HW" 1 rfl⟩

/-- C8: with CH physically ON and HW physically ON and no transition pending,
`setState("CH", 0)` takes the plain branch (the dangerous-case test fails on
`hw_state === 0`): exactly one pin write `CH = 0` happens, the promise
resolves, and HW (and `pending`) are unchanged. -/
theorem setPromise_ch_off_while_hw_on_is_direct (valve_return : Int) :
    Controller.setPromise valve_return ⟨1, 1, false⟩ "CH" 0 =
      SetResult.resolved [PinWrite.write "CH" 0] ⟨0, 1, false⟩ := rfl

/-- C1 (code bug evidence): with CH ON, HW OFF and no transition pending, the
claimed interlock sequence is CH=0, HW=1, a wait of at least `valve_return`
ms, then CH=0 again with the transition completing.  Evaluating the embedded
`Controller.setPromise` at exactly that input shows the code instead performs
only the first two writes and then rejects with a TypeError — the promise
callback reads `this.valve_return` with `this` undefined (strict-mode class
body) — so the wait never happens, the final CH=0 write never happens, and
`pending` is left stuck `true`. -/
theorem setPromise_dangerous_path_rejects :
    Controller.setPromise 8000 ⟨1, 0, false⟩ "CH" 0 =
      SetResult.rejected "TypeError: cannot read valve_return of undefined"
        [PinWrite.write "CH" 0, PinWrite.write "HW" 1] ⟨0, 1, true⟩ := by
  decide

/-- C9: during one `pollRules` tick, as long as every configured rule has a
callable `testfn` (the contract documented at the loop: rule evaluation
functions return a promise), every rule is invoked exactly once in order, a
rule whose evaluation fails (rejected promise) is caught and logged by its
per-rule `.catch` without stopping the remaining rules, and the next-tick
timer is re-armed regardless of failures. -/
theorem pollRules_failure_isolated (rules : List Rule)
    (h : ∀ r ∈ rules, r.hasTestFn = true) :
    (Controller.pollRules rules).evaluated = rules.map Rule.name ∧
    (Controller.pollRules rules).logged = (rules.filter Rule.rejects).map Rule.name ∧
    (Controller.pollRules rules).timerArmed = true := by
  induction rules with
  | nil => exact ⟨rfl, rfl, rfl⟩
  | cons r rs ih =>
    have hr : r.hasTestFn = true := h r (List.mem_cons_self r rs)
    have ih' := ih fun q hq => h q (List.mem_cons_of_mem r hq)
    refine ⟨?_, ?_, ?_⟩ <;>
      cases hrj : r.rejects <;>
        simp [Controller.pollRules, hr, hrj, List.filter_cons, ih'.1, ih'.2.1, ih'.2.2]

theorem pollRules_failure_isolated_witness :
    (∀ r ∈ ([⟨"HW", true, false⟩, ⟨"CH", true, true⟩, ⟨"X", true, false⟩] : List Rule),
      r.hasTestFn = true) ∧
    (Controller.pollRules [⟨"HW", true, false⟩, ⟨"CH", true, true⟩, ⟨"X", true, false⟩]).evaluated
      = ["HW", "CH", "X"] ∧
    (Controller.pollRules [⟨"HW", true, false⟩, ⟨"CH", true, true⟩, ⟨"X", true, false⟩]).logged
      = ["CH"] ∧
    (Controller.pollRules [⟨"HW", true, false⟩, ⟨"CH", true, true⟩, ⟨"X", true, false⟩]).timerArmed
      = true := by
  refine ⟨by decide, ?_⟩
  have h := pollRules_failure_isolated
    [⟨"HW", true, false⟩, ⟨"CH", true, true⟩, ⟨"X", true, false⟩] (by decide)
  exact ⟨h.1, by simpa using h.2.1, h.2.2⟩

theorem purge_keeps_mem (th : Thermostat) (m : Option String) (now : Int) (r : Request) :
    r ∈ (th.purgeRequests m now).requests ↔
      r ∈ th.requests ∧
        !(requestMatches m r || requestExpired th.temperature th.timeline.max now r) = true := by
  simp [Thermostat.purgeRequests, List.mem_filter]

/-- C4: running `purgeRequests()` with no match criteria leaves no request
whose `until` is a concrete time in the past (`until < Time.nowSeconds()`),
and keeps every non-BOOST request whose `until` has not yet passed. -/
theorem purge_removes_expired (th : Thermostat) (now : Int) :
    (∀ r ∈ (th.purgeRequests none now).requests, ∀ t, r.until_ = Until.time t → ¬t < now) ∧
    (∀ r ∈ th.requests, ∀ t, r.until_ = Until.time t → now ≤ t →
      r ∈ (th.purgeRequests none now).requests) := by
  constructor
  · intro r hr t ht
    have hp := ((purge_keeps_mem th none now r).mp hr).2
    simp [requestMatches, requestExpired, ht] at hp
    omega
  · intro r hr t ht hle
    refine (purge_keeps_mem th none now r).mpr ⟨hr, ?_⟩
    simp [requestMatches, requestExpired, ht]
    omega

theorem purge_removes_expired_witness :
    (⟨"c", 25, Until.time 100⟩ : Request) ∈
      (Thermostat.purgeRequests
        ⟨20, ⟨50, fun _ => Except.error "unused"⟩,
          [⟨"c", 25, Until.time 100⟩, ⟨"d", 25, Until.time 99⟩]⟩ none 100).requests ∧
    ¬(100 : Int) < 100 := by
  have h := purge_removes_expired
    ⟨20, ⟨50, fun _ => Except.error "unused"⟩,
      [⟨"c", 25, Until.time 100⟩, ⟨"d", 25, Until.time 99⟩]⟩ 100
  have hm := h.2 ⟨"c", 25, Until.time 100⟩ (by simp) 100 rfl (le_refl 100)
  exact ⟨hm, h.1 ⟨"c", 25, Until.time 100⟩ hm 100 rfl⟩

/-- C5: a BOOST request is never removed by `purgeRequests()` because of
elapsed wall-clock time (the membership condition below does not involve
`now` at all, and the theorem holds for every `now`); with no explicit match
criteria it is removed exactly when the sensed temperature has reached or
exceeded the request's target, or has reached or exceeded the timeline's
configured maximum. -/
theorem boost_expires_only_by_temperature (th : Thermostat) (now : Int) (r : Request)
    (hb : r.until_ = Until.boost) (hm : r ∈ th.requests) :
    r ∈ (th.purgeRequests none now).requests ↔
      ¬(th.temperature ≥ r.target ∨ th.temperature ≥ th.timeline.max) := by
  rw [purge_keeps_mem]
  simp [hm, requestMatches, requestExpired, hb, ge_iff_le]

theorem boost_expires_only_by_temperature_witness :
    (⟨"b", 30, Until.boost⟩ : Request).until_ = Until.boost ∧
    (⟨"b", 30, Until.boost⟩ : Request) ∈
      ([⟨"b", 30, Until.boost⟩] : List Request) ∧
    (⟨"b", 30, Until.boost⟩ : Request) ∈
      (Thermostat.purgeRequests
        ⟨20, ⟨50, fun _ => Except.error "unused"⟩, [⟨"b", 30, Until.boost⟩]⟩
        none 12345).requests := by
  refine ⟨rfl, by simp, ?_⟩
  exact (boost_expires_only_by_temperature
    ⟨20, ⟨50, fun _ => Except.error "unused"⟩, [⟨"b", 30, Until.boost⟩]⟩
    12345 ⟨"b", 30, Until.boost⟩ rfl (by simp)).mpr (by norm_num)

theorem getTargetTemperature_characterization (th : Thermostat) (now tod : Int) :
    th.getTargetTemperature now tod =
      match mostRecentBoost (th.purgeRequests none now).requests with
      | some r => r.target
      | none =>
        match (th.purgeRequests none now).requests.getLast? with
        | some r => r.target
        | none =>
          match th.timeline.valueAtTime tod with
          | .ok t => t
          | .error _ => 0 := by
  cases hlive : (th.purgeRequests none now).requests with
  | nil =>
    simp [Thermostat.getTargetTemperature, hlive, mostRecentBoost]
  | cons r0 rest =>
    simp only [Thermostat.getTargetTemperature, hlive]
    rw [find?_reverse_eq_getLast?_filter]
    simp only [mostRecentBoost]
    cases hb : ((r0 :: rest).filter fun r => decide (r.until_ = Until.boost)).getLast? with
    | some r => simp
    | none =>
      simp only
      rw [List.getLast?_eq_getLast (r0 :: rest) (List.cons_ne_nil r0 rest)]

/-- C3: `getTargetTemperature` resolves the effective target as: if any
active (purge-surviving) request is a BOOST request, the most recently added
BOOST request's target (the tail-to-head scan's first match); otherwise, if
any active requests exist, the most recently added request's target (last in
insertion order); otherwise `timeline.valueAtTime` at the current time of
day (whenever that call returns normally). -/
theorem getTargetTemperature_resolution (th : Thermostat) (now tod : Int) :
    (∀ r, mostRecentBoost (th.purgeRequests none now).requests = some r →
      th.getTargetTemperature now tod = r.target) ∧
    (mostRecentBoost (th.purgeRequests none now).requests = none →
      ∀ r, (th.purgeRequests none now).requests.getLast? = some r →
        th.getTargetTemperature now tod = r.target) ∧
    ((th.purgeRequests none now).requests = [] →
      ∀ t, th.timeline.valueAtTime tod = Except.ok t →
        th.getTargetTemperature now tod = t) := by
  refine ⟨?_, ?_, ?_⟩
  · intro r hr
    rw [getTargetTemperature_characterization, hr]
  · intro hnone r hr
    rw [getTargetTemperature_characterization, hnone, hr]
  · intro hempty t ht
    have h1 : mostRecentBoost (th.purgeRequests none now).requests = none := by
      rw [hempty]; rfl
    have h2 : (th.purgeRequests none now).requests.getLast? = none := by
      rw [hempty]; rfl
    rw [getTargetTemperature_characterization, h1, h2, ht]

theorem getTargetTemperature_resolution_witness :
    Thermostat.getTargetTemperature
      ⟨20, ⟨50, fun _ => Except.error "unused"⟩,
        [⟨"a", 21, Until.time 200⟩, ⟨"b", 30, Until.boost⟩, ⟨"e", 35, Until.boost⟩]⟩
      100 5 = 35 ∧
    Thermostat.getTargetTemperature
      ⟨20, ⟨50, fun _ => Except.error "unused"⟩,
        [⟨"a", 21, Until.time 200⟩, ⟨"c", 22, Until.time 300⟩]⟩ 100 5 = 22 ∧
    Thermostat.getTargetTemperature
      ⟨20, ⟨50, fun t => if t = 5 then Except.ok 15 else Except.error "RangeError"⟩, []⟩
      100 5 = 15 := by
  refine ⟨?_, ?_, ?_⟩
  · exact (getTargetTemperature_resolution _ 100 5).1 ⟨"e", 35, Until.boost⟩ (by decide)
  · exact (getTargetTemperature_resolution _ 100 5).2.1 (by decide)
      ⟨"c", 22, Until.time 300⟩ (by decide)
  · exact (getTargetTemperature_resolution _ 100 5).2.2 (by decide) 15 rfl

/-- C10: with no active requests, a `timeline.valueAtTime` failure is caught
inside `getTargetTemperature` (logged via `Utils.TRACE`) and the method
returns `0` instead of propagating the exception. -/
theorem getTargetTemperature_timeline_error_returns_zero (th : Thermostat)
    (now tod : Int) (hempty : (th.purgeRequests none now).requests = [])
    (e : String) (he : th.timeline.valueAtTime tod = Except.error e) :
    th.getTargetTemperature now tod = 0 := by
  have h1 : mostRecentBoost (th.purgeRequests none now).requests = none := by
    rw [hempty]; rfl
  have h2 : (th.purgeRequests none now).requests.getLast? = none := by
    rw [hempty]; rfl
  rw [getTargetTemperature_characterization, h1, h2, he]

theorem getTargetTemperature_timeline_error_returns_zero_witness :
    ((⟨20, ⟨50, fun _ => Except.error "RangeError"⟩, []⟩ : Thermostat).purgeRequests
      none 0).requests = [] ∧
    (⟨20, ⟨50, fun _ => Except.error "RangeError"⟩, []⟩ : Thermostat).timeline.valueAtTime 5
      = Except.error "RangeError" ∧
    Thermostat.getTargetTemperature
      ⟨20, ⟨50, fun _ => Except.error "RangeError"⟩, []⟩ 0 5 = 0 :=
  ⟨rfl, rfl,
    getTargetTemperature_timeline_error_returns_zero
      ⟨20, ⟨50, fun _ => Except.error "RangeError"⟩, []⟩ 0 5 rfl "RangeError" rfl⟩

/-- C6 counterexample: the claim quantifies over every source string, but
`addRequest` guards its purge with JS truthiness (`if (source)`), so for the
empty source string no purge happens and two `addRequest("", ...)` calls
leave two requests with the same source — more than one request for that
source. -/
theorem addRequest_empty_source_duplicates :
    ¬((((⟨20, ⟨50, fun _ => Except.error "unused"⟩, []⟩ : Thermostat).addRequest ""
          20 (Until.time 200) 100).addRequest "" 21 (Until.time 300) 100).requests.countP
        (fun r => r.source == "") ≤ 1) := by
  decide

theorem purged_source_ne (th : Thermostat) (s : String) (now : Int) :
    ∀ a ∈ (th.purgeRequests (some s) now).requests, a.source ≠ s := by
  intro a ha heq
  have hp := ((purge_keeps_mem th (some s) now a).mp ha).2
  have hmt : requestMatches (some s) a = true := by simp [requestMatches, heq]
  simp [hmt] at hp

theorem addRequest_nonempty_requests_eq (th : Thermostat) (s : String) (tg : ℚ)
    (u : Until) (now : Int) (hs : s ≠ "") :
    (th.addRequest s tg u now).requests =
      (th.purgeRequests (some s) now).requests ++ [⟨s, tg, u⟩] := by
  simp [Thermostat.addRequest, hs]

theorem addRequest_preserves_sourcesDistinct (th : Thermostat) (s : String) (tg : ℚ)
    (u : Until) (now : Int) (hs : s ≠ "") (h : sourcesDistinct th.requests) :
    sourcesDistinct (th.addRequest s tg u now).requests := by
  rw [sourcesDistinct, addRequest_nonempty_requests_eq th s tg u now hs]
  refine List.pairwise_append.mpr ⟨?_, List.pairwise_singleton _ _, ?_⟩
  · exact h.sublist (List.filter_sublist _)
  · intro a ha b hb
    have hb' : b = ⟨s, tg, u⟩ := by simpa using hb
    rw [hb']
    exact purged_source_ne th s now a ha

theorem addRequest_count_one (th : Thermostat) (s : String) (tg : ℚ) (u : Until)
    (now : Int) (hs : s ≠ "") :
    (th.addRequest s tg u now).requests.countP (fun r => r.source == s) = 1 := by
  rw [addRequest_nonempty_requests_eq th s tg u now hs, List.countP_append]
  have h0 : (th.purgeRequests (some s) now).requests.countP (fun r => r.source == s) = 0 :=
    List.countP_eq_zero.mpr fun a ha => by
      simpa using purged_source_ne th s now a ha
  rw [h0]
  simp [List.countP_cons]

/-- C6 (amended: restricted to non-empty source strings, which is what the
truthiness guard `if (source)` enforces): `addRequest(source, target, until)`
with a non-empty source purges every existing request with the same source
and then appends the new one, so the result holds exactly one request with
that source; and after any sequence of such calls starting from a request
list with pairwise-distinct sources, the list still holds at most one request
per source. -/
theorem addRequest_per_source_unique (th : Thermostat) (calls : List AddCall)
    (h0 : sourcesDistinct th.requests) (hne : ∀ c ∈ calls, c.source ≠ "") :
    sourcesDistinct (applyCalls th calls).requests ∧
    ∀ s : String, s ≠ "" → ∀ (tg : ℚ) (u : Until) (now : Int),
      (th.addRequest s tg u now).requests.countP (fun r => r.source == s) = 1 := by
  constructor
  · induction calls generalizing th with
    | nil => exact h0
    | cons c cs ih =>
      exact ih
        (th.addRequest c.source c.target c.until_ c.now)
        (addRequest_preserves_sourcesDistinct th c.source c.target c.until_ c.now
          (hne c (List.mem_cons_self c cs)) h0)
        (fun q hq => hne q (List.mem_cons_of_mem c hq))
  · intro s hs tg u now
    exact addRequest_count_one th s tg u now hs

theorem addRequest_per_source_unique_witness :
    sourcesDistinct (applyCalls ⟨20, ⟨50, fun _ => Except.error "unused"⟩, []⟩
      [⟨"A", 20, Until.time 200, 100⟩, ⟨"A", 21, Until.time 300, 100⟩]).requests ∧
    ((⟨20, ⟨50, fun _ => Except.error "unused"⟩, []⟩ : Thermostat).addRequest "A" 21
      (Until.time 300) 100).requests.countP (fun r => r.source == "A") = 1 := by
  have h := addRequest_per_source_unique ⟨20, ⟨50, fun _ => Except.error "unused"⟩, []⟩
    [⟨"A", 20, Until.time 200, 100⟩, ⟨"A", 21, Until.time 300, 100⟩]
    List.Pairwise.nil (by decide)
  exact ⟨h.1, h.2 "A" (by decide) 21 (Until.time 300) 100⟩

/-- C7: whenever the pin's request list contains an active (purge-surviving)
request demanding off (`state = 0`), `Pin.getActiveRequest` returns a request
with `state = 0`, overriding simultaneously active on/boost requests from
other sources regardless of the order the requests were added in. -/
theorem pin_off_request_overrides (now : Int) (reqs : List PinRequest) (r : PinRequest)
    (hr : r ∈ Pin.purgeRequests none none now reqs) (h0 : r.state = 0) :
    ∃ q, Pin.getActiveRequest now reqs = some q ∧ q.state = 0 := by
  rw [Pin.getActiveRequest]
  cases hlive : Pin.purgeRequests none none now reqs with
  | nil => rw [hlive] at hr; cases hr
  | cons a rest =>
    rw [hlive] at hr
    by_cases ha : a.state = 0
    · exact ⟨a, by simp [Pin.getActiveRequestScan, ha], ha⟩
    · have hrrest : r ∈ rest := (List.mem_cons.mp hr).resolve_left fun h => ha (h ▸ h0)
      have hsome : (rest.find? fun q => decide (q.state = 0)).isSome :=
        List.find?_isSome.mpr ⟨r, hrrest, by simp [h0]⟩
      obtain ⟨q, hq⟩ := Option.isSome_iff_exists.mp hsome
      refine ⟨q, by simp [Pin.getActiveRequestScan, ha, hq], ?_⟩
      simpa using List.find?_some hq

theorem pin_off_request_overrides_witness :
    (⟨"y", 0, 200⟩ : PinRequest) ∈
      Pin.purgeRequests none none 100 [⟨"x", 1, 200⟩, ⟨"y", 0, 200⟩] ∧
    (⟨"y", 0, 200⟩ : PinRequest).state = 0 ∧
    ∃ q, Pin.getActiveRequest 100 [⟨"x", 1, 200⟩, ⟨"y", 0, 200⟩] = some q ∧
      q.state = 0 :=
  ⟨by decide, rfl,
    pin_off_request_overrides 100 [⟨"x", 1, 200⟩, ⟨"y", 0, 200⟩]
      ⟨"y", 0, 200⟩ (by decide) rfl⟩

end Hotpot
